import Mathlib

/-!
Verification of the ranking, clustering, caching and digest-curation core of
the n3rdfeed repository (TypeScript).  JavaScript numbers are modelled as
real numbers; timestamps (`Date.now()`, `created_at`) are epoch
milliseconds as real numbers.  The one place where IEEE `NaN` semantics are
observable — `cosineSimilarity`, whose `0/0` division yields `NaN` — is
modelled with `Option ℝ`, `none` playing the role of `NaN` (every JS
comparison with `NaN` is false).
-/

namespace N3rdFeed

noncomputable section

open Classical

/-- One entry of `metrics_history` (src/types.ts): `\x7b ts: number; score: number \x7d`. -/
structure MetricEntry where
  ts : ℝ
  score : ℝ

/-- The `Post` record (src/types.ts), restricted to the fields read by the
scoring / clustering / digest core.  `created_at` is the creation timestamp
in epoch milliseconds (the value of `new Date(post.created_at).getTime()`
for a valid date string).  A missing `metrics_history` is modelled as `[]`
(the code only reads `.length` and elements).  `comments_count` is the
untyped `(post as any).comments_count` field carried by freshly fetched
Hacker News items and absent on posts loaded from the database. -/
structure Post where
  id : String
  source : String
  username : String
  name : String
  stars : ℝ
  description : String
  tldr_ru : Option String
  url : String
  created_at : ℝ
  metrics_history : List MetricEntry
  embedding : Option (List ℝ)
  comments_count : Option ℝ

/-- Characters matched by the JS regex class `\s` (the ASCII ones that can
occur in the post descriptions this regex is run on). -/
def isSpaceChar (c : Char) : Prop :=
  c = (' ') ∨ c = ('\t') ∨ c = ('\n') ∨ c = ('\r')

/-- Drop the maximal run of `\s` characters (greedy `\s*`). -/
def dropSpaces : List Char → List Char
  | [] => []
  | c :: cs => if isSpaceChar c then dropSpaces cs else c :: cs

/-- Split off the maximal run of decimal digits (greedy `\d+`). -/
def takeDigits : List Char → List Char × List Char
  | [] => ([], [])
  | c :: cs =>
    if c.isDigit then
      let r := takeDigits cs
      (c :: r.1, r.2)
    else ([], c :: cs)

/-- Value of a run of decimal digits, as read by JS `Number`. -/
def digitsToNat (ds : List Char) : ℕ :=
  ds.foldl (fun n c => n * 10 + (c.toNat - (Char.toNat ('0')))) 0

/-- Whether the character list `s` starts with the pattern `pat`. -/
def charsStartWith : List Char → List Char → Bool
  | _, [] => true
  | [], _ :: _ => false
  | a :: s, b :: p => a == b && charsStartWith s p

/-- Whether `pat` occurs as a contiguous run somewhere in `s`
(JS `String.prototype.includes`). -/
def charsContain : List Char → List Char → Bool
  | [], pat => pat.isEmpty
  | s@(_ :: rest), pat => charsStartWith s pat || charsContain rest pat

/-- JS `text.includes(pat)`. -/
def strIncludes (s pat : String) : Bool :=
  charsContain s.data pat.data

/-- JS `String.prototype.toLowerCase`, modelled character-wise with
`Char.toLower` (identical on the ASCII source tags, URLs and keywords this
core lowercases). -/
def strToLower (s : String) : String :=
  String.mk (s.data.map Char.toLower)

/-- Attempt to match the regex `\|\s*(\d+)\s*comments` at the head of the
character list; on success return the captured digit run's value. -/
def matchCommentsAt (l : List Char) : Option ℕ :=
  match l with
  | [] => none
  | c :: rest =>
    if c = ('|') then
      let r1 := dropSpaces rest
      let pair := takeDigits r1
      if pair.1.isEmpty then none
      else
        let r3 := dropSpaces pair.2
        if charsStartWith r3 (String.data ("comments")) then some (digitsToNat pair.1)
        else none
    else none

/-- `description.match(/\|\s*(\d+)\s*comments/)` (src/db.ts line 58):
first position where the pattern matches, returning the captured count. -/
def hnCommentsMatch : List Char → Option ℕ
  | [] => none
  | c :: cs =>
    match matchCommentsAt (c :: cs) with
    | some n => some n
    | none => hnCommentsMatch cs

/-- The `scorePost` scoring function (src/db.ts lines 33–95), parametrised by
`now = Date.now()` in epoch milliseconds.  `Number(post.stars) || 0` is the
identity on every real number except `0` (falsy), which it maps to `0`;
on a numeric `stars` field no clamping of negative values happens.
`Math.pow` and `Math.log10` are modelled by `Real.rpow` / `Real.logb 10`. -/
def scorePost (post : Post) (now : ℝ) : ℝ :=
  let weight : ℝ :=
    if post.source = "github" then 1.8
    else if post.source = "hackernews" then 1.1
    else if post.source = "huggingface" then 1.1
    else if post.source = "reddit" then 0.8
    else if post.source = "replicate" then 0.6
    else 1.0
  let points0 : ℝ := if post.stars = 0 then 0 else post.stars
  let points1 : ℝ := if post.source = "replicate" then points0 / 100 else points0
  let points : ℝ :=
    if post.source = "hackernews" then
      let comments0 : ℝ := post.comments_count.getD 0
      let comments : ℝ :=
        if comments0 = 0 ∧ post.description ≠ "" then
          match hnCommentsMatch post.description.data with
          | some n => (n : ℝ)
          | none => comments0
        else comments0
      points1 + Real.logb 10 (comments + 1) * 2
    else points1
  let hoursAge : ℝ := max 0 ((now - post.created_at) / (1000 * 60 * 60))
  let velocityBonus : ℝ :=
    if hoursAge < 12 ∧ 1 < post.metrics_history.length then
      let threeHoursAgo : ℝ := now - 3 * 60 * 60 * 1000
      let pastEntry : MetricEntry :=
        (post.metrics_history.find? (fun h => decide (threeHoursAgo ≤ h.ts))).getD
          (post.metrics_history.headD ⟨0, 0⟩)
      if pastEntry.score < post.stars ∧
          post.stars - pastEntry.score > pastEntry.score * 0.1 then 1.5
      else 1.0
    else 1.0
  let gravity : ℝ := 1.2
  let effectivePoints : ℝ := points / (hoursAge + 2) ^ gravity
  Real.logb 10 (effectivePoints + 1) * weight * velocityBonus * 100

/-- Per-source weight table (spec §4.1 step 1; the `sourceWeights` record of
src/db.ts lines 35–42 together with the `|| 1.0` default). -/
def sourceWeight (source : String) : ℝ :=
  if source = "github" then 1.8
  else if source = "hackernews" then 1.1
  else if source = "huggingface" then 1.1
  else if source = "reddit" then 0.8
  else if source = "replicate" then 0.6
  else 1.0

/-- Source-rescaled base points (spec §4.1 step 2; src/db.ts lines 44–65). -/
def basePoints (post : Post) : ℝ :=
  let points0 : ℝ := if post.stars = 0 then 0 else post.stars
  let points1 : ℝ := if post.source = "replicate" then points0 / 100 else points0
  if post.source = "hackernews" then
    let comments0 : ℝ := post.comments_count.getD 0
    let comments : ℝ :=
      if comments0 = 0 ∧ post.description ≠ "" then
        match hnCommentsMatch post.description.data with
        | some n => (n : ℝ)
        | none => comments0
      else comments0
    points1 + Real.logb 10 (comments + 1) * 2
  else points1

/-- Hours since creation, floored at 0 (src/db.ts lines 67–69). -/
def hoursAge (post : Post) (now : ℝ) : ℝ :=
  max 0 ((now - post.created_at) / (1000 * 60 * 60))

/-- Velocity bonus (spec §4.1 step 4; src/db.ts lines 71–83). -/
def velocityBonus (post : Post) (now : ℝ) : ℝ :=
  if hoursAge post now < 12 ∧ 1 < post.metrics_history.length then
    let threeHoursAgo : ℝ := now - 3 * 60 * 60 * 1000
    let pastEntry : MetricEntry :=
      (post.metrics_history.find? (fun h => decide (threeHoursAgo ≤ h.ts))).getD
        (post.metrics_history.headD ⟨0, 0⟩)
    if pastEntry.score < post.stars ∧
        post.stars - pastEntry.score > pastEntry.score * 0.1 then 1.5
    else 1.0
  else 1.0

/-- The inner branch of the velocity bonus (src/db.ts lines 75–82), taken
when the post is younger than 12 hours and has at least two history
entries; it depends only on `metrics_history`, `stars` and `now`. -/
def vbInner (post : Post) (now : ℝ) : ℝ :=
  let threeHoursAgo : ℝ := now - 3 * 60 * 60 * 1000
  let pastEntry : MetricEntry :=
    (post.metrics_history.find? (fun h => decide (threeHoursAgo ≤ h.ts))).getD
      (post.metrics_history.headD ⟨0, 0⟩)
  if pastEntry.score < post.stars ∧
      post.stars - pastEntry.score > pastEntry.score * 0.1 then 1.5
  else 1.0

/-- Copy of a post with a different creation timestamp (used to state decay
monotonicity with every other input held equal). -/
def setCreatedAt (post : Post) (c : ℝ) : Post :=
  ⟨post.id, post.source, post.username, post.name, post.stars, post.description,
    post.tldr_ru, post.url, c, post.metrics_history, post.embedding,
    post.comments_count⟩

/-- Remove one trailing occurrence of `sfx` (the anchored JS regexes
`/\/$/` and `/\.git$/` replace at most one trailing match). -/
def dropOneSuffix (s sfx : String) : String :=
  if s.endsWith sfx then s.dropRight sfx.length else s

/-- JS `String.prototype.replace` with a plain-string pattern removes only
the first occurrence of the pattern. -/
def removeFirstChars : List Char → List Char → List Char
  | [], _ => []
  | c :: cs, pat =>
    if charsStartWith (c :: cs) pat then (c :: cs).drop pat.length
    else c :: removeFirstChars cs pat

/-- Model of the WHATWG `new URL` constructor restricted to the two fields
`normalizeUrl` reads (hostname and pathname), for absolute `http://` /
`https://` URLs: the hostname is the authority up to a `:` port separator,
the pathname is the `/`-led path up to a `?` or `#` (an empty path reads as
`/`).  Any other string is modelled as a parse failure, which in
`normalizeUrl` lands in the `catch` branch. -/
def parseHttpUrl (url : String) : Option (String × String) :=
  let core? : Option String :=
    if String.startsWith url ("https://") then some (url.drop 8)
    else if String.startsWith url ("http://") then some (url.drop 7)
    else none
  match core? with
  | none => none
  | some core =>
    let hostPort := core.takeWhile (fun c => !(c == ('/') || c == ('?') || c == ('#')))
    let rest := core.drop hostPort.length
    let hostname := hostPort.takeWhile (fun c => !(c == (':')))
    let path := rest.takeWhile (fun c => !(c == ('?') || c == ('#')))
    let pathname := if path = "" then "/" else path
    if hostname = "" then none else some (hostname, pathname)

/-- The `normalizeUrl` helper (utils.ts lines 119–134): lowercased hostname
with the first `www.` removed, plus the lowercased path with one trailing
slash and one trailing `.git` stripped; on a parse failure, the same
replacements applied textually after stripping a leading scheme. -/
def normalizeUrl (url : String) : String :=
  if url = "" then ""
  else
    match parseHttpUrl url with
    | some (hostname, pathname) =>
      let p1 := dropOneSuffix pathname ("/")
      let p2 := dropOneSuffix p1 (".git")
      let path := strToLower p2
      let host := strToLower (String.mk (removeFirstChars hostname.data (String.data ("www."))))
      host ++ path
    | none =>
      let s1 :=
        if String.startsWith url ("https://") then url.drop 8
        else if String.startsWith url ("http://") then url.drop 7
        else url
      let s2 := String.mk (removeFirstChars s1.data (String.data ("www.")))
      let s3 := dropOneSuffix s2 ("/")
      let s4 := dropOneSuffix s3 (".git")
      strToLower s4

/-- Sum of squares of a vector; its square root is the L2 norm computed by
`cosineSimilarity`. -/
def sumsq (v : List ℝ) : ℝ := (v.map fun x => x * x).sum

/-- The `cosineSimilarity` helper (utils.ts lines 103–113, duplicated at
src/db.ts lines 476–486): dot product over the product of L2 norms.  The
loop runs over the indices of `vecA`; a longer `vecA` reads past the end of
`vecB`, which in JS yields `undefined` and poisons every accumulator with
`NaN` — modelled as `none`.  When both norms are finite, a zero denominator
means the dot product is also `0`, so the JS division is `0/0 = NaN` —
also modelled as `none`.  There is no explicit zero-vector guard in the
source. -/
def cosineSimilarity (vecA vecB : List ℝ) : Option ℝ :=
  if vecB.length < vecA.length then none
  else
    let pairs := vecA.zip vecB
    let dotProduct := (pairs.map fun p => p.1 * p.2).sum
    let normA := sumsq vecA
    let normB := (pairs.map fun p => p.2 * p.2).sum
    if Real.sqrt normA * Real.sqrt normB = 0 then none
    else some (dotProduct / (Real.sqrt normA * Real.sqrt normB))

/-- JS `x > t` where `x` may be `NaN` (`none`): false on `NaN`. -/
def jsGt (o : Option ℝ) (t : ℝ) : Prop :=
  match o with
  | some s => t < s
  | none => False

/-- JS `x < t` where `x` may be `NaN` (`none`): false on `NaN`. -/
def jsLt (o : Option ℝ) (t : ℝ) : Prop :=
  match o with
  | some s => s < t
  | none => False

/-- JS `Math.max` on two values, absorbing `NaN`. -/
def jsMax2 : Option ℝ → Option ℝ → Option ℝ
  | some a, some b => some (max a b)
  | _, _ => none

/-- JS `Math.max(...xs)` over a spread list: `NaN` if any argument is
`NaN`; `none` doubles for the empty spread (the callers guard it). -/
def jsMaxList : List (Option ℝ) → Option ℝ
  | [] => none
  | x :: xs => xs.foldl jsMax2 x

/-- The relatedness test of the greedy clustering (src/db.ts lines 443–456):
embedding cosine similarity above 0.85 when both posts carry embeddings,
else URL identity after normalization when both URLs are nonempty. -/
def postRelated (a b : Post) : Prop :=
  (match a.embedding, b.embedding with
   | some ea, some eb => jsGt (cosineSimilarity ea eb) 0.85
   | _, _ => False) ∨
  (a.url ≠ "" ∧ b.url ≠ "" ∧ normalizeUrl a.url = normalizeUrl b.url)

/-- A cluster as built by `posts.queryClustered` (src/db.ts lines 429–434). -/
structure Cluster where
  id : String
  mainPost : Post
  relatedPosts : List Post
  totalScore : ℝ

/-- The inner scan of the greedy clustering (src/db.ts lines 440–463): walk
every loaded post, skip the ones already processed, and fold related ones
into the open cluster, crediting `0.2 ×` their score and marking their ids
processed. -/
def scanRelated (main : Post) (now : ℝ) :
    List Post → List Post → ℝ → List String → List Post × ℝ × List String
  | [], related, total, processed => (related, total, processed)
  | p :: rest, related, total, processed =>
    if p.id ∈ processed then scanRelated main now rest related total processed
    else if postRelated main p then
      scanRelated main now rest (related ++ [p]) (total + scorePost p now * 0.2)
        (processed ++ [p.id])
    else scanRelated main now rest related total processed

/-- The outer loop of the greedy clustering (src/db.ts lines 426–466): each
unprocessed post opens a cluster seeded with its own score, is marked
processed, and absorbs its related posts via `scanRelated`. -/
def buildClustersAux (now : ℝ) (allPosts : List Post) :
    List Post → List String → List Cluster × List String
  | [], processed => ([], processed)
  | post :: rest, processed =>
    if post.id ∈ processed then buildClustersAux now allPosts rest processed
    else
      let scan := scanRelated post now allPosts [] (scorePost post now)
        (processed ++ [post.id])
      let tail := buildClustersAux now allPosts rest scan.2.2
      (⟨post.id, post, scan.1, scan.2.1⟩ :: tail.1, tail.2)

/-- `posts.queryClustered` (src/db.ts lines 417–470) applied to the list of
posts the database query returned: greedy clustering followed by the
descending sort on `totalScore` (the JS comparator
`(a, b) => b.totalScore - a.totalScore`). -/
def queryClustered (allPosts : List Post) (now : ℝ) : List Cluster :=
  if allPosts.isEmpty then []
  else
    (buildClustersAux now allPosts allPosts []).1.mergeSort
      (fun a b => decide (b.totalScore ≤ a.totalScore))

/-- Every post occurrence in a cluster list: each cluster's `mainPost`
followed by its `relatedPosts`. -/
def allClusterPosts (clusters : List Cluster) : List Post :=
  clusters.flatMap fun c => c.mainPost :: c.relatedPosts

/-- One digest-history row as read by `posts.getDigestHistory`
(src/db.ts lines 383–402): only the embedding is used. -/
structure HistEntry where
  embedding : List ℝ

/-- The body of the temporal-deduplication filter of `createDigest`
(src/services/digest.ts lines 17–30): a candidate with no main-post
embedding is kept; otherwise the maximum cosine similarity against the
history embeddings (or `0` for an empty history) must pass the JS test
`maxSimilarity < 0.85`. -/
def keepCandidate (history : List HistEntry) (cluster : Cluster) : Prop :=
  match cluster.mainPost.embedding with
  | none => True
  | some emb =>
    let maxSimilarity : Option ℝ :=
      if 0 < history.length then
        jsMaxList (history.map fun h => cosineSimilarity h.embedding emb)
      else some 0
    jsLt maxSimilarity 0.85

/-- The temporal-deduplication step of `createDigest`
(src/services/digest.ts lines 14–31): skipped entirely when `force` is
true, otherwise a filter by `keepCandidate`. -/
def temporalDedup (force : Bool) (history : List HistEntry)
    (clusters : List Cluster) : List Cluster :=
  if force then clusters
  else clusters.filter fun c => decide (keepCandidate history c)

/-- The category taxonomy of the diversity filter (utils.ts line 139). -/
inductive ContentCategory
  | NLP
  | CV
  | Audio
  | Systems
  | General
deriving DecidableEq

/-- The `categorizePost` classifier (utils.ts lines 144–199): keyword
presence in the lowercased concatenation of name, description and TLDR,
checked in the fixed priority order Systems, CV, Audio, NLP, General. -/
def categorizePost (post : Post) : ContentCategory :=
  let text :=
    strToLower (post.name ++ " " ++ post.description ++ " " ++ post.tldr_ru.getD "")
  if ["inference", "cuda", "quantization", "gguf", "rust", "cpp", "engine",
      "optimization"].any (fun k => strIncludes text k) then ContentCategory.Systems
  else if ["image", "video", "diffusion", "vision", "segmentation",
      "detection"].any (fun k => strIncludes text k) then ContentCategory.CV
  else if ["audio", "speech", "voice", "tts", "stt",
      "music"].any (fun k => strIncludes text k) then ContentCategory.Audio
  else if ["llm", "gpt", "text", "language", "rag", "agent",
      "chat"].any (fun k => strIncludes text k) then ContentCategory.NLP
  else ContentCategory.General

/-- The diversity-filter loop of `createDigest` (src/services/digest.ts
lines 33–48): walk the candidates, stop as soon as 8 clusters are accepted,
and accept a cluster only while its category's running count is below 3. -/
def diversitySelect :
    List Cluster → List Cluster → (ContentCategory → ℕ) → List Cluster
  | [], acc, _ => acc
  | c :: rest, acc, counts =>
    if 8 ≤ acc.length then acc
    else
      let category := categorizePost c.mainPost
      let count := counts category
      if count < 3 then
        diversitySelect rest (acc ++ [c])
          (fun x => if x = category then count + 1 else counts x)
      else diversitySelect rest acc counts

/-- The diversity filter applied to the deduplicated candidates, with all
category counts starting at zero (src/services/digest.ts lines 34–36). -/
def diversityFilter (clusters : List Cluster) : List Cluster :=
  diversitySelect clusters [] (fun _ => 0)

/-- Distinct lowercased source tags across the posts of a cluster
(worker.ts lines 28–33, the `Set` named `sourceTypes`). -/
def clusterSourceTags (cluster : Cluster) : List String :=
  ((cluster.mainPost :: cluster.relatedPosts).map fun p => strToLower p.source).dedup

/-- The synergy multiplier of the feed rebuild (worker.ts lines 34–36):
initialised to 1.0, set to 1.2 for exactly two distinct sources and to 1.5
for three or more. -/
def synergyMultiplier (uniqueSourcesCount : ℕ) : ℝ :=
  if uniqueSourcesCount = 2 then 1.2
  else if 3 ≤ uniqueSourcesCount then 1.5
  else 1.0

/-- Result of the synergy part of the per-cluster processing in
`rebuildFeed` (worker.ts lines 23–38).  The display-only fields computed
afterwards (best link, display name, spotted links) are not modelled. -/
structure ProcessedCluster where
  cluster : Cluster
  uniqueSourcesCount : ℕ
  multiplier : ℝ
  boostedScore : ℝ

/-- Synergy boost of one cluster in `rebuildFeed` (worker.ts lines 23–38):
count the distinct source tags, derive the multiplier and the boosted
score `totalScore * multiplier`. -/
def processCluster (cluster : Cluster) : ProcessedCluster :=
  let sourceTypes := clusterSourceTags cluster
  let uniqueSourcesCount := sourceTypes.length
  let multiplier := synergyMultiplier uniqueSourcesCount
  ⟨cluster, uniqueSourcesCount, multiplier, cluster.totalScore * multiplier⟩

/-- The feed-cache snapshot (src/cache.ts lines 6–9):
`\x7b clusters, lastUpdated \x7d`; the cache state is `Option CachedFeed`,
`none` being the initial empty state. -/
structure CachedFeed where
  clusters : List ProcessedCluster
  lastUpdated : ℝ

/-- `FeedCache.set` (src/cache.ts lines 24–29): replace the snapshot
wholesale. -/
def feedCacheSet (clusters : List ProcessedCluster) (now : ℝ)
    (_cache : Option CachedFeed) : Option CachedFeed :=
  some ⟨clusters, now⟩

/-- `FeedCache.clear` (src/cache.ts lines 35–37). -/
def feedCacheClear (_cache : Option CachedFeed) : Option CachedFeed := none

/-- `rebuildFeed` (worker.ts lines 17–124) as a transition on the
feed-cache state.  The whole body sits in a `try`; its effectful part —
the `queryClustered` database fetch feeding the pure per-cluster
processing — is modelled by its outcome, an `Except` value.  An
`Except.error` is a throw reaching the `catch` at worker.ts line 120,
which only logs and touches nothing; an `Except.ok` carries the fetched
clusters, which are processed, sorted by `boostedScore` descending and
written through `feedCache.set`. -/
def rebuildFeed (tryResult : Except String (List Cluster)) (now : ℝ)
    (cache : Option CachedFeed) : Option CachedFeed :=
  match tryResult with
  | Except.error _ => cache
  | Except.ok clusteredPosts =>
    let processed := (clusteredPosts.map processCluster).mergeSort
      (fun a b => decide (b.boostedScore ≤ a.boostedScore))
    feedCacheSet processed now cache

/-- Concrete post builder for the closed test inputs below: only the id,
source, stars, creation time, embedding and url vary. -/
def mkPost (id source : String) (stars created : ℝ) (emb : Option (List ℝ))
    (url : String) : Post :=
  ⟨id, source, "user", "item", stars, "", none, url, created, [], emb, none⟩

/-- Concrete input: a GitHub post with a negative popularity counter. -/
def negStarsPost : Post := mkPost ("neg") ("github") (-100) 0 none ("")

/-- Concrete input: the same post with the counter replaced by 0. -/
def negStarsPostClamped : Post := mkPost ("neg") ("github") 0 0 none ("")

/-- Concrete input: a GitHub post with popularity -5. -/
def w7post : Post := mkPost ("w7") ("github") (-5) 0 none ("")

/-- Concrete input: a zero-popularity post created one hour before time 0. -/
def p8a : Post := mkPost ("p8") ("github") 0 (-3600000) none ("")

/-- Concrete input: the same zero-popularity post aged one more hour. -/
def p8b : Post := setCreatedAt p8a (-7200000)

/-- Concrete input: a GitHub post with popularity 100. -/
def w8post : Post := mkPost ("w8") ("github") 100 0 none ("")

/-- Concrete input: a single post for the coverage witness. -/
def w10post : Post := mkPost ("w10") ("github") 5 0 none ("https://github.com/a/b")

/-- Concrete input: three posts from three distinct sources. -/
def c3a : Post := mkPost ("c3a") ("github") 10 0 none ("")

/-- Concrete input: second source. -/
def c3b : Post := mkPost ("c3b") ("huggingface") 9 0 none ("")

/-- Concrete input: third source. -/
def c3c : Post := mkPost ("c3c") ("reddit") 8 0 none ("")

/-- Concrete input: a cluster holding the three posts above. -/
def c3cluster : Cluster := ⟨"c3a", c3a, [c3b, c3c], 10⟩

/-- Concrete input: a history embedding for the dedup boundary check. -/
def c4hist : HistEntry := ⟨[1, 0]⟩

/-- Concrete input: an embedding whose cosine similarity with `c4hist` is
exactly 0.85: the dot product is 17 and the norm product is `1 * 20`. -/
def c4emb : List ℝ := [17, Real.sqrt 111]

/-- Concrete input: the digest candidate carrying `c4emb`. -/
def c4cluster : Cluster := ⟨"c4", mkPost ("c4") ("github") 1 0 (some c4emb) (""), [], 1⟩

/-- Concrete input: a history embedding for the dedup witnesses. -/
def w4hist : HistEntry := ⟨[1, 0]⟩

/-- Concrete input: a candidate whose similarity with `w4hist` is 1. -/
def w4dropCluster : Cluster :=
  ⟨"w4d", mkPost ("w4d") ("github") 1 0 (some [1, 0]) (""), [], 1⟩

/-- Concrete input: a candidate with no embedding. -/
def w4noembCluster : Cluster :=
  ⟨"w4n", mkPost ("w4n") ("github") 1 0 none (""), [], 1⟩

/-- Concrete input: a candidate whose similarity with `w4hist` is 0. -/
def w4keepCluster : Cluster :=
  ⟨"w4k", mkPost ("w4k") ("github") 1 0 (some [0, 1]) (""), [], 1⟩

/-- Concrete input: a zero-norm (all-zero) embedding. -/
def c9emb : List ℝ := [0, 0]

/-- Concrete input: the digest candidate carrying the zero embedding. -/
def c9cluster : Cluster := ⟨"c9", mkPost ("c9") ("github") 1 0 (some c9emb) (""), [], 1⟩

/-- Concrete input: a nonzero history embedding. -/
def c9hist : HistEntry := ⟨[1, 0]⟩

/-- Concrete input: a zero-norm embedding of length three. -/
def w9emb : List ℝ := [0, 0, 0]

/-- Concrete input: the candidate carrying `w9emb`. -/
def w9cluster : Cluster := ⟨"w9", mkPost ("w9") ("github") 1 0 (some w9emb) (""), [], 1⟩

/-- Concrete input: a history embedding for the zero-vector witness. -/
def w9hist : HistEntry := ⟨[2, 1]⟩

/-- Concrete input: a nonempty feed-cache snapshot. -/
def w6cache : Option CachedFeed := some ⟨[], 0⟩

/-! Helper lemmas about the scoring function. -/

/-- Unfolding of `scorePost` into the spec-side components: the let-chain of
src/db.ts lines 33–95 is definitionally the gravity formula. -/
lemma scorePost_decompose (post : Post) (now : ℝ) :
    scorePost post now =
      Real.logb 10 (basePoints post / (hoursAge post now + 2) ^ (1.2 : ℝ) + 1) *
        sourceWeight post.source * velocityBonus post now * 100 := rfl

/-- Unfolding of the velocity bonus into its guard and inner branch. -/
lemma velocityBonus_eq (post : Post) (now : ℝ) :
    velocityBonus post now =
      if hoursAge post now < 12 ∧ 1 < post.metrics_history.length
      then vbInner post now else 1.0 := rfl

/-- The inner velocity branch is either the 1.5 boost or neutral. -/
lemma vbInner_eq_or (post : Post) (now : ℝ) :
    vbInner post now = 1.5 ∨ vbInner post now = 1.0 := by
  unfold vbInner
  dsimp only
  split
  · left; rfl
  · right; rfl

/-- The inner velocity branch is at least 1. -/
lemma vbInner_ge_one (post : Post) (now : ℝ) : 1 ≤ vbInner post now := by
  rcases vbInner_eq_or post now with h | h <;> rw [h] <;> norm_num

/-- The velocity bonus is either 1.5 or 1.0. -/
lemma velocityBonus_eq_or (post : Post) (now : ℝ) :
    velocityBonus post now = 1.5 ∨ velocityBonus post now = 1.0 := by
  rw [velocityBonus_eq]
  split
  · exact vbInner_eq_or post now
  · right; rfl

/-- The velocity bonus is at least 1. -/
lemma velocityBonus_ge_one (post : Post) (now : ℝ) : 1 ≤ velocityBonus post now := by
  rcases velocityBonus_eq_or post now with h | h <;> rw [h] <;> norm_num

/-- Every source weight is positive. -/
lemma sourceWeight_pos (s : String) : 0 < sourceWeight s := by
  unfold sourceWeight
  repeat' split
  all_goals norm_num

/-- Changing the creation timestamp leaves the metric history unchanged. -/
lemma setCreatedAt_metrics (post : Post) (c : ℝ) :
    (setCreatedAt post c).metrics_history = post.metrics_history := rfl

/-- The inner velocity branch ignores the creation timestamp. -/
lemma vbInner_setCreatedAt (post : Post) (c now : ℝ) :
    vbInner (setCreatedAt post c) now = vbInner post now := rfl

/-- The computed age is never negative. -/
lemma hoursAge_nonneg (post : Post) (now : ℝ) : 0 ≤ hoursAge post now :=
  le_max_left 0 _

/-- The velocity bonus never increases when only the age grows. -/
lemma velocityBonus_mono (post : Post) (now c1 c2 : ℝ)
    (h : hoursAge (setCreatedAt post c1) now < hoursAge (setCreatedAt post c2) now) :
    velocityBonus (setCreatedAt post c2) now ≤
      velocityBonus (setCreatedAt post c1) now := by
  rw [velocityBonus_eq, velocityBonus_eq, vbInner_setCreatedAt, vbInner_setCreatedAt,
    setCreatedAt_metrics, setCreatedAt_metrics]
  by_cases h2 : hoursAge (setCreatedAt post c2) now < 12 ∧ 1 < post.metrics_history.length
  · rw [if_pos h2, if_pos ⟨lt_trans h h2.1, h2.2⟩]
  · rw [if_neg h2]
    split
    · have := vbInner_ge_one post now
      linarith
    · exact le_refl _

/-- The base points ignore the creation timestamp. -/
lemma basePoints_setCreatedAt (post : Post) (c : ℝ) :
    basePoints (setCreatedAt post c) = basePoints post := rfl

/-- The source weight ignores the creation timestamp. -/
lemma sourceWeight_setCreatedAt (post : Post) (c : ℝ) :
    sourceWeight (setCreatedAt post c).source = sourceWeight post.source := rfl

/-! Claim C1. -/

/-- Claim C1: for every item (any creation timestamp and numeric popularity
counter, both total in this embedding), `scorePost` returns exactly
`log10(basePoints / (hoursAge + 2)^1.2 + 1) * sourceWeight * velocityBonus
* 100`, where `hoursAge` is floored at 0, `basePoints` is the
source-rescaled popularity, `sourceWeight` is the fixed per-source table
(1.8 github, 1.1 hackernews and huggingface, 0.8 reddit, 0.6 replicate,
1.0 unknown) and the velocity bonus is 1.5 or 1.0 per the velocity rule. -/
theorem scorePost_formula (post : Post) (now : ℝ) :
    scorePost post now =
      Real.logb 10 (basePoints post / (hoursAge post now + 2) ^ (1.2 : ℝ) + 1) *
        sourceWeight post.source * velocityBonus post now * 100 ∧
    (velocityBonus post now = 1.5 ∨ velocityBonus post now = 1.0) :=
  ⟨scorePost_decompose post now, velocityBonus_eq_or post now⟩

/-! Claim C7. -/

/-- Claim C7 counterexample: `scorePost` does not clamp a negative
popularity counter to 0 before the logarithm.  With the counter clamped to
0 the score is 0, but the post with counter -100 (same source, age 0, no
history) scores a nonzero value: `Number(post.stars) || 0` maps only the
falsy 0 to 0 and passes -100 through into the formula.  (In JS the log of
the resulting negative argument is `NaN`; in this real-number embedding
`Real.log` reads the absolute value — under either semantics the result
differs from the popularity-0 score, refuting the claimed clamp.) -/
theorem scorePost_negative_stars_counterexample :
    negStarsPost.stars < 0 ∧
    scorePost negStarsPostClamped 0 = 0 ∧
    scorePost negStarsPost 0 ≠ 0 := by
  refine ⟨by norm_num [negStarsPost, mkPost], ?_, ?_⟩
  · simp only [scorePost, negStarsPostClamped, mkPost]
    norm_num [Real.logb_one, show ("github" : String) ≠ "replicate" from by decide,
      show ("github" : String) ≠ "hackernews" from by decide]
  · have hbp : basePoints negStarsPost = -100 := by
      norm_num [basePoints, negStarsPost, mkPost,
        show ("github" : String) ≠ "replicate" from by decide,
        show ("github" : String) ≠ "hackernews" from by decide]
    have hha : hoursAge negStarsPost 0 = 0 := by
      norm_num [hoursAge, negStarsPost, mkPost]
    have hvb : velocityBonus negStarsPost 0 = 1.0 := by
      rw [velocityBonus_eq]
      norm_num [negStarsPost, mkPost]
    have hsw : sourceWeight negStarsPost.source = 1.8 := by
      norm_num [sourceWeight, negStarsPost, mkPost]
    rw [scorePost_decompose, hbp, hha, hvb, hsw]
    have ht0 : (0:ℝ) < (0 + 2 : ℝ) ^ (1.2:ℝ) := Real.rpow_pos_of_pos (by norm_num) _
    have ht4 : ((0 + 2 : ℝ)) ^ (1.2:ℝ) ≤ 4 := by
      have h1 : ((0 + 2 : ℝ)) ^ (1.2:ℝ) ≤ ((0 + 2 : ℝ)) ^ (2:ℝ) :=
        Real.rpow_le_rpow_of_exponent_le (by norm_num) (by norm_num)
      have h2 : ((0 + 2 : ℝ)) ^ (2:ℝ) = 4 := by norm_num
      linarith
    have hq : (25:ℝ) ≤ 100 / (0 + 2 : ℝ) ^ (1.2:ℝ) := by
      have := div_le_div_of_nonneg_left (by norm_num : (0:ℝ) ≤ 100) ht0 ht4
      linarith
    have harg : (-100:ℝ) / (0 + 2 : ℝ) ^ (1.2:ℝ) + 1 < -1 := by
      have hneg : (-100:ℝ) / (0 + 2 : ℝ) ^ (1.2:ℝ) =
          -(100 / (0 + 2 : ℝ) ^ (1.2:ℝ)) := by ring
      rw [hneg]
      linarith
    set a : ℝ := (-100:ℝ) / (0 + 2 : ℝ) ^ (1.2:ℝ) + 1 with ha
    have hloga : 0 < Real.log a := by
      rw [← Real.log_neg_eq_log a]
      exact Real.log_pos (by linarith)
    have hlogb : 0 < Real.logb 10 a := by
      rw [Real.logb]
      exact div_pos hloga (Real.log_pos (by norm_num))
    have : 0 < Real.logb 10 a * 1.8 * 1.0 * 100 := by positivity
    exact ne_of_gt this

/-- Claim C7 (amended): the only clamping applied to the popularity
counter is JS falsiness — a popularity of exactly 0 (or a non-numeric
one) contributes 0 base points, while a strictly negative popularity is
not clamped: for sources without extra rescaling the base points equal the
raw (possibly negative) counter.  The function itself is total, so it
never throws. -/
theorem basePoints_clamp_only_zero (post : Post)
    (h1 : post.source ≠ "hackernews") (h2 : post.source ≠ "replicate") :
    basePoints post = if post.stars = 0 then 0 else post.stars := by
  simp only [basePoints, if_neg h1, if_neg h2]

/-- Claim C7 amended witness: the github post with popularity -5 keeps its
raw negative base points. -/
theorem basePoints_clamp_only_zero_witness :
    (w7post.source ≠ "hackernews" ∧ w7post.source ≠ "replicate" ∧ w7post.stars < 0) ∧
    basePoints w7post = if w7post.stars = 0 then 0 else w7post.stars :=
  ⟨⟨by decide, by decide, by norm_num [w7post, mkPost]⟩,
    basePoints_clamp_only_zero w7post (by decide) (by decide)⟩

/-! Claim C8. -/

/-- Claim C8 counterexample: with base points 0 the score is 0 at every
age, so it does not strictly decrease as `hoursAge` increases.  `p8b` is
`p8a` with only the creation timestamp changed (one hour older). -/
theorem scorePost_decay_counterexample :
    hoursAge p8a 0 < hoursAge p8b 0 ∧ scorePost p8b 0 = scorePost p8a 0 := by
  constructor
  · norm_num [hoursAge, p8a, p8b, setCreatedAt, mkPost]
  · have ha : scorePost p8a 0 = 0 := by
      simp only [scorePost, p8a, mkPost]
      norm_num [Real.logb_one, show ("github" : String) ≠ "replicate" from by decide,
        show ("github" : String) ≠ "hackernews" from by decide]
    have hb : scorePost p8b 0 = 0 := by
      simp only [scorePost, p8b, p8a, setCreatedAt, mkPost]
      norm_num [Real.logb_one, show ("github" : String) ≠ "replicate" from by decide,
        show ("github" : String) ≠ "hackernews" from by decide]
    rw [ha, hb]

/-- Claim C8 (amended): for every item with positive base points, with all
inputs other than the creation timestamp held equal, the score strictly
decreases as the computed `hoursAge` increases. -/
theorem scorePost_age_decay (post : Post) (now c1 c2 : ℝ)
    (hbp : 0 < basePoints post)
    (hlt : hoursAge (setCreatedAt post c1) now < hoursAge (setCreatedAt post c2) now) :
    scorePost (setCreatedAt post c2) now < scorePost (setCreatedAt post c1) now := by
  rw [scorePost_decompose, scorePost_decompose, basePoints_setCreatedAt,
    basePoints_setCreatedAt, sourceWeight_setCreatedAt, sourceWeight_setCreatedAt]
  set h1 := hoursAge (setCreatedAt post c1) now with hh1
  set h2 := hoursAge (setCreatedAt post c2) now with hh2
  have h1nn : 0 ≤ h1 := hoursAge_nonneg _ _
  have hD : (h1 + 2) ^ (1.2 : ℝ) < (h2 + 2) ^ (1.2 : ℝ) :=
    Real.rpow_lt_rpow (by linarith) (by linarith) (by norm_num)
  have hD1 : (0 : ℝ) < (h1 + 2) ^ (1.2 : ℝ) := Real.rpow_pos_of_pos (by linarith) _
  have hD2 : (0 : ℝ) < (h2 + 2) ^ (1.2 : ℝ) := Real.rpow_pos_of_pos (by linarith) _
  have hdiv : basePoints post / (h2 + 2) ^ (1.2 : ℝ) <
      basePoints post / (h1 + 2) ^ (1.2 : ℝ) :=
    div_lt_div_of_pos_left hbp hD1 hD
  have harg2 : (0 : ℝ) < basePoints post / (h2 + 2) ^ (1.2 : ℝ) := div_pos hbp hD2
  have hlog : Real.logb 10 (basePoints post / (h2 + 2) ^ (1.2 : ℝ) + 1) <
      Real.logb 10 (basePoints post / (h1 + 2) ^ (1.2 : ℝ) + 1) :=
    Real.logb_lt_logb (by norm_num) (by linarith) (by linarith)
  have hlog2 : (0 : ℝ) < Real.logb 10 (basePoints post / (h2 + 2) ^ (1.2 : ℝ) + 1) :=
    Real.logb_pos (by norm_num) (by linarith)
  have hw : 0 < sourceWeight post.source := sourceWeight_pos _
  have hvb : velocityBonus (setCreatedAt post c2) now ≤
      velocityBonus (setCreatedAt post c1) now :=
    velocityBonus_mono post now c1 c2 hlt
  have hvb2 : 1 ≤ velocityBonus (setCreatedAt post c2) now := velocityBonus_ge_one _ _
  have hvb1 : 1 ≤ velocityBonus (setCreatedAt post c1) now := velocityBonus_ge_one _ _
  have hvb1p : (0 : ℝ) < velocityBonus (setCreatedAt post c1) now := by linarith
  have step1 : Real.logb 10 (basePoints post / (h2 + 2) ^ (1.2 : ℝ) + 1) *
      sourceWeight post.source * velocityBonus (setCreatedAt post c2) now ≤
      Real.logb 10 (basePoints post / (h2 + 2) ^ (1.2 : ℝ) + 1) *
      sourceWeight post.source * velocityBonus (setCreatedAt post c1) now :=
    mul_le_mul_of_nonneg_left hvb (le_of_lt (mul_pos hlog2 hw))
  have step2 : Real.logb 10 (basePoints post / (h2 + 2) ^ (1.2 : ℝ) + 1) *
      sourceWeight post.source * velocityBonus (setCreatedAt post c1) now <
      Real.logb 10 (basePoints post / (h1 + 2) ^ (1.2 : ℝ) + 1) *
      sourceWeight post.source * velocityBonus (setCreatedAt post c1) now :=
    mul_lt_mul_of_pos_right (mul_lt_mul_of_pos_right hlog hw) hvb1p
  linarith

/-- Claim C8 amended witness: the popularity-100 github post aged from one
to two hours strictly loses score. -/
theorem scorePost_age_decay_witness :
    0 < basePoints w8post ∧
    hoursAge (setCreatedAt w8post (-3600000)) 0 <
      hoursAge (setCreatedAt w8post (-7200000)) 0 ∧
    scorePost (setCreatedAt w8post (-7200000)) 0 <
      scorePost (setCreatedAt w8post (-3600000)) 0 := by
  have hbp : (0:ℝ) < basePoints w8post := by
    norm_num [basePoints, w8post, mkPost,
      show ("github" : String) ≠ "replicate" from by decide,
      show ("github" : String) ≠ "hackernews" from by decide]
  have hlt : hoursAge (setCreatedAt w8post (-3600000)) 0 <
      hoursAge (setCreatedAt w8post (-7200000)) 0 := by
    norm_num [hoursAge, setCreatedAt, w8post, mkPost]
  exact ⟨hbp, hlt, scorePost_age_decay w8post 0 (-3600000) (-7200000) hbp hlt⟩

lemma scanRelated_spec (main : Post) (now : ℝ) :
    ∀ (l related : List Post) (total : ℝ) (processed : List String),
      ∃ Δ : List Post,
        (scanRelated main now l related total processed).1 = related ++ Δ ∧
        (scanRelated main now l related total processed).2.2 = processed ++ Δ.map Post.id ∧
        (∀ x ∈ Δ, x ∈ l ∧ x.id ∉ processed) ∧
        (Δ.map Post.id).Nodup := by
  intro l
  induction l with
  | nil =>
    intro related total processed
    exact ⟨[], by simp [scanRelated], by simp [scanRelated], by simp, by simp⟩
  | cons p rest ih =>
    intro related total processed
    by_cases hmem : p.id ∈ processed
    · obtain ⟨Δ, e1, e2, e3, e4⟩ := ih related total processed
      refine ⟨Δ, ?_, ?_, ?_, e4⟩
      · simp only [scanRelated]
        rw [if_pos hmem]
        exact e1
      · simp only [scanRelated]
        rw [if_pos hmem]
        exact e2
      · intro x hx
        exact ⟨List.mem_cons_of_mem p (e3 x hx).1, (e3 x hx).2⟩
    · by_cases hrel : postRelated main p
      · obtain ⟨Δ, e1, e2, e3, e4⟩ :=
          ih (related ++ [p]) (total + scorePost p now * 0.2) (processed ++ [p.id])
        refine ⟨p :: Δ, ?_, ?_, ?_, ?_⟩
        · simp only [scanRelated]
          rw [if_neg hmem, if_pos hrel, e1, List.append_assoc, List.singleton_append]
        · simp only [scanRelated]
          rw [if_neg hmem, if_pos hrel, e2, List.append_assoc, List.singleton_append,
            List.map_cons]
        · intro x hx
          rcases List.mem_cons.mp hx with rfl | hx'
          · exact ⟨List.mem_cons_self x rest, hmem⟩
          · refine ⟨List.mem_cons_of_mem p (e3 x hx').1, ?_⟩
            intro hc
            exact (e3 x hx').2 (List.mem_append_left [p.id] hc)
        · rw [List.map_cons, List.nodup_cons]
          refine ⟨?_, e4⟩
          intro hc
          obtain ⟨q, hq, hqid⟩ := List.mem_map.mp hc
          exact (e3 q hq).2 (List.mem_append_right processed (by simp [hqid]))
      · obtain ⟨Δ, e1, e2, e3, e4⟩ := ih related total processed
        refine ⟨Δ, ?_, ?_, ?_, e4⟩
        · simp only [scanRelated]
          rw [if_neg hmem, if_neg hrel]
          exact e1
        · simp only [scanRelated]
          rw [if_neg hmem, if_neg hrel]
          exact e2
        · intro x hx
          exact ⟨List.mem_cons_of_mem p (e3 x hx).1, (e3 x hx).2⟩



lemma allClusterPosts_nil : allClusterPosts [] = [] := rfl

lemma allClusterPosts_cons (c : Cluster) (l : List Cluster) :
    allClusterPosts (c :: l) = (c.mainPost :: c.relatedPosts) ++ allClusterPosts l := by
  simp [allClusterPosts]

lemma buildClustersAux_spec (now : ℝ) (allPosts : List Post) :
    ∀ (rem : List Post) (processed : List String),
      ∃ Δ : List String,
        (buildClustersAux now allPosts rem processed).2 = processed ++ Δ ∧
        (allClusterPosts (buildClustersAux now allPosts rem processed).1).map Post.id = Δ ∧
        (∀ i ∈ Δ, i ∉ processed) ∧
        Δ.Nodup ∧
        (∀ q ∈ allClusterPosts (buildClustersAux now allPosts rem processed).1,
          q ∈ rem ∨ q ∈ allPosts) := by
  intro rem
  induction rem with
  | nil =>
    intro processed
    exact ⟨[], by simp [buildClustersAux], by simp [buildClustersAux, allClusterPosts],
      by simp, by simp, by simp [buildClustersAux, allClusterPosts]⟩
  | cons post rest ih =>
    intro processed
    by_cases hmem : post.id ∈ processed
    · obtain ⟨Δ, e1, e2, e3, e4, e5⟩ := ih processed
      refine ⟨Δ, ?_, ?_, e3, e4, ?_⟩
      · simp only [buildClustersAux]
        rw [if_pos hmem]
        exact e1
      · simp only [buildClustersAux]
        rw [if_pos hmem]
        exact e2
      · simp only [buildClustersAux]
        rw [if_pos hmem]
        intro q hq
        rcases e5 q hq with hq' | hq'
        · exact Or.inl (List.mem_cons_of_mem post hq')
        · exact Or.inr hq'
    · obtain ⟨Δs, s1, s2, s3, s4⟩ :=
        scanRelated_spec post now allPosts [] (scorePost post now) (processed ++ [post.id])
      obtain ⟨Δ₂, e1, e2, e3, e4, e5⟩ :=
        ih ((scanRelated post now allPosts [] (scorePost post now)
          (processed ++ [post.id])).2.2)
      refine ⟨(post.id :: Δs.map Post.id) ++ Δ₂, ?_, ?_, ?_, ?_, ?_⟩
      · simp only [buildClustersAux]
        rw [if_neg hmem]
        dsimp only
        rw [e1, s2]
        simp [List.append_assoc]
      · simp only [buildClustersAux]
        rw [if_neg hmem]
        dsimp only
        rw [allClusterPosts_cons]
        dsimp only
        rw [List.map_append, List.map_cons, e2, s1]
        simp
      · intro i hi
        rcases List.mem_append.mp hi with hi' | hi'
        · rcases List.mem_cons.mp hi' with rfl | hi''
          · exact hmem
          · obtain ⟨q, hq, hqid⟩ := List.mem_map.mp hi''
            intro hc
            exact (s3 q hq).2 (List.mem_append_left [post.id] (hqid ▸ hc))
        · intro hc
          have := e3 i hi'
          rw [s2] at this
          exact this (List.mem_append_left _ (List.mem_append_left [post.id] hc))
      · rw [List.nodup_append]
        refine ⟨?_, e4, ?_⟩
        · rw [List.nodup_cons]
          refine ⟨?_, s4⟩
          intro hc
          obtain ⟨q, hq, hqid⟩ := List.mem_map.mp hc
          exact (s3 q hq).2 (List.mem_append_right processed (by simp [hqid]))
        · intro i hi hc
          have := e3 i hc
          rw [s2] at this
          rcases List.mem_cons.mp hi with rfl | hi'
          · exact this (List.mem_append_left _ (List.mem_append_right processed (by simp)))
          · exact this (List.mem_append_right _ hi')
      · simp only [buildClustersAux]
        rw [if_neg hmem]
        dsimp only
        rw [allClusterPosts_cons]
        intro q hq
        rcases List.mem_append.mp hq with hq' | hq'
        · rcases List.mem_cons.mp hq' with rfl | hq''
          · exact Or.inl (List.mem_cons_self q rest)
          · have : q ∈ ([] : List Post) ++ Δs := s1 ▸ hq''
            rw [List.nil_append] at this
            exact Or.inr (s3 q this).1
        · rcases e5 q hq' with hq'' | hq''
          · exact Or.inl (List.mem_cons_of_mem post hq'')
          · exact Or.inr hq''



lemma buildClustersAux_covers (now : ℝ) (allPosts : List Post) :
    ∀ (rem : List Post) (processed : List String), ∀ p ∈ rem,
      p.id ∈ (buildClustersAux now allPosts rem processed).2 := by
  intro rem
  induction rem with
  | nil => intro processed p hp; exact absurd hp (List.not_mem_nil p)
  | cons post rest ih =>
    intro processed p hp
    by_cases hmem : post.id ∈ processed
    · simp only [buildClustersAux]
      rw [if_pos hmem]
      rcases List.mem_cons.mp hp with rfl | hp'
      · obtain ⟨Δ, e1, -, -, -, -⟩ := buildClustersAux_spec now allPosts rest processed
        rw [e1]
        exact List.mem_append_left Δ hmem
      · exact ih processed p hp'
    · simp only [buildClustersAux]
      rw [if_neg hmem]
      dsimp only
      rcases List.mem_cons.mp hp with rfl | hp'
      · obtain ⟨Δs, -, s2, -, -⟩ :=
          scanRelated_spec p now allPosts [] (scorePost p now) (processed ++ [p.id])
        obtain ⟨Δ₂, e1, -, -, -, -⟩ := buildClustersAux_spec now allPosts rest
          ((scanRelated p now allPosts [] (scorePost p now) (processed ++ [p.id])).2.2)
        rw [e1, s2]
        exact List.mem_append_left _ (List.mem_append_left _
          (List.mem_append_right processed (by simp)))
      · exact ih _ p hp'

lemma perm_flatMap {α β : Type} (f : α → List β) {l₁ l₂ : List α} (h : l₁.Perm l₂) :
    (l₁.flatMap f).Perm (l₂.flatMap f) := by
  induction h with
  | nil => exact List.Perm.refl _
  | cons x h ih => simpa using ih.append_left (f x)
  | swap x y l =>
    simp only [List.flatMap_cons]
    rw [← List.append_assoc, ← List.append_assoc]
    exact List.perm_append_comm.append_right _
  | trans h₁ h₂ ih₁ ih₂ => exact ih₁.trans ih₂

lemma queryClustered_perm (posts : List Post) (now : ℝ) (h : ¬posts.isEmpty) :
    (allClusterPosts (queryClustered posts now)).Perm
      (allClusterPosts (buildClustersAux now posts posts []).1) := by
  rw [queryClustered, if_neg h]
  exact perm_flatMap _ (List.mergeSort_perm _ _)

lemma queryClustered_ids_nodup (posts : List Post) (now : ℝ) :
    ((allClusterPosts (queryClustered posts now)).map Post.id).Nodup := by
  by_cases hemp : posts.isEmpty
  · rw [queryClustered, if_pos hemp]
    simp [allClusterPosts]
  · obtain ⟨Δ, -, e2, -, e4, -⟩ := buildClustersAux_spec now posts posts []
    have hperm := (queryClustered_perm posts now hemp).map Post.id
    rw [hperm.nodup_iff, e2]
    exact e4

lemma queryClustered_sub (posts : List Post) (now : ℝ) :
    ∀ q ∈ allClusterPosts (queryClustered posts now), q ∈ posts := by
  intro q hq
  by_cases hemp : posts.isEmpty
  · rw [queryClustered, if_pos hemp] at hq
    exact absurd hq (by simp [allClusterPosts])
  · obtain ⟨Δ, -, -, -, -, e5⟩ := buildClustersAux_spec now posts posts []
    have := (queryClustered_perm posts now hemp).mem_iff.mp hq
    rcases e5 q this with h | h <;> exact h

lemma queryClustered_covers_mem (posts : List Post) (now : ℝ)
    (hids : (posts.map Post.id).Nodup) :
    ∀ p ∈ posts, p ∈ allClusterPosts (queryClustered posts now) := by
  intro p hp
  have hemp : ¬posts.isEmpty := by
    cases posts with
    | nil => exact absurd hp (List.not_mem_nil p)
    | cons a l => simp
  obtain ⟨Δ, e1, e2, -, -, -⟩ := buildClustersAux_spec now posts posts []
  have hid : p.id ∈ (buildClustersAux now posts posts []).2 :=
    buildClustersAux_covers now posts posts [] p hp
  rw [e1, List.nil_append] at hid
  rw [← e2] at hid
  obtain ⟨q, hq, hqid⟩ := List.mem_map.mp hid
  have hqposts : q ∈ posts := by
    by_cases hemp2 : posts.isEmpty
    · exact absurd hp (by cases posts <;> simp_all)
    · obtain ⟨Δ', -, -, -, -, e5⟩ := buildClustersAux_spec now posts posts []
      rcases e5 q hq with h | h <;> exact h
  have : q = p := List.inj_on_of_nodup_map hids hqposts hp hqid
  rw [← this]
  exact (queryClustered_perm posts now hemp).mem_iff.mpr hq



/-- Claim C2: after a single run of the greedy clustering on any input
list, no post appears in two clusters — the ids of all post occurrences
across every `mainPost` field and every `relatedPosts` list are pairwise
distinct, hence every post value occurs at most once. -/
theorem queryClustered_partition (posts : List Post) (now : ℝ) :
    ((allClusterPosts (queryClustered posts now)).map Post.id).Nodup ∧
    (allClusterPosts (queryClustered posts now)).Nodup :=
  ⟨queryClustered_ids_nodup posts now,
    List.Nodup.of_map _ (queryClustered_ids_nodup posts now)⟩

/-- Claim C10: when the input posts have pairwise distinct `id` strings,
the greedy clustering covers the input completely — every input post
appears in the output, never twice, and lies in exactly one cluster,
either as that cluster's `mainPost` or in its `relatedPosts`. -/
theorem queryClustered_covers (posts : List Post) (now : ℝ)
    (hids : (posts.map Post.id).Nodup) :
    ∀ p ∈ posts,
      p ∈ allClusterPosts (queryClustered posts now) ∧
      ¬ [p, p].Sublist (allClusterPosts (queryClustered posts now)) ∧
      ∃! c, c ∈ queryClustered posts now ∧ (p = c.mainPost ∨ p ∈ c.relatedPosts) := by
  intro p hp
  have hmem := queryClustered_covers_mem posts now hids p hp
  have hnd : (allClusterPosts (queryClustered posts now)).Nodup :=
    List.Nodup.of_map _ (queryClustered_ids_nodup posts now)
  refine ⟨hmem, ?_, ?_⟩
  · exact (List.nodup_iff_sublist.mp hnd) p
  · have hnd' : ((queryClustered posts now).flatMap
        fun c => c.mainPost :: c.relatedPosts).Nodup := by
      simpa only [allClusterPosts] using hnd
    have hfm := List.nodup_flatMap.mp hnd'
    have hex : ∃ c ∈ queryClustered posts now,
        p = c.mainPost ∨ p ∈ c.relatedPosts := by
      simpa only [allClusterPosts, List.mem_flatMap, List.mem_cons] using hmem
    obtain ⟨c, hc, hpc⟩ := hex
    refine ⟨c, ⟨hc, hpc⟩, ?_⟩
    rintro c' ⟨hc', hpc'⟩
    by_contra hne
    have hdisj : List.Disjoint (c'.mainPost :: c'.relatedPosts)
        (c.mainPost :: c.relatedPosts) :=
      (List.Pairwise.forall (fun a b h => h.symm) hfm.2) hc' hc hne
    have hp1 : p ∈ c'.mainPost :: c'.relatedPosts := by
      rcases hpc' with h | h
      · rw [h]; exact List.mem_cons_self _ _
      · exact List.mem_cons_of_mem _ h
    have hp2 : p ∈ c.mainPost :: c.relatedPosts := by
      rcases hpc with h | h
      · rw [h]; exact List.mem_cons_self _ _
      · exact List.mem_cons_of_mem _ h
    exact hdisj hp1 hp2

/-- Claim C10 witness: the coverage theorem applied to a concrete
one-post input. -/
theorem queryClustered_covers_witness :
    (([w10post].map Post.id).Nodup) ∧
    (w10post ∈ allClusterPosts (queryClustered [w10post] 0) ∧
      ¬ [w10post, w10post].Sublist (allClusterPosts (queryClustered [w10post] 0)) ∧
      ∃! c, c ∈ queryClustered [w10post] 0 ∧
        (w10post = c.mainPost ∨ w10post ∈ c.relatedPosts)) :=
  ⟨by simp,
    queryClustered_covers [w10post] 0 (by simp) w10post (List.mem_singleton.mpr rfl)⟩

/-! Claim C5. -/

/-- Loop invariant of the diversity filter: the running counts mirror the
per-category sizes of the accumulator, every count is capped at 3 and the
accumulator never exceeds 8. -/
lemma diversitySelect_spec :
    ∀ (rem acc : List Cluster) (counts : ContentCategory → ℕ),
      acc.length ≤ 8 →
      (∀ cat, (acc.filter fun c => decide (categorizePost c.mainPost = cat)).length
        = counts cat) →
      (∀ cat, counts cat ≤ 3) →
      (diversitySelect rem acc counts).length ≤ 8 ∧
      ∀ cat, ((diversitySelect rem acc counts).filter
        fun c => decide (categorizePost c.mainPost = cat)).length ≤ 3 := by
  intro rem
  induction rem with
  | nil =>
    intro acc counts hlen hcnt hcap
    refine ⟨?_, ?_⟩
    · simpa [diversitySelect] using hlen
    · intro cat
      rw [diversitySelect, hcnt cat]
      exact hcap cat
  | cons c rest ih =>
    intro acc counts hlen hcnt hcap
    by_cases hbreak : 8 ≤ acc.length
    · constructor
      · simp only [diversitySelect]
        rw [if_pos hbreak]
        exact hlen
      · intro cat
        simp only [diversitySelect]
        rw [if_pos hbreak, hcnt cat]
        exact hcap cat
    · by_cases hcat : counts (categorizePost c.mainPost) < 3
      · have step : diversitySelect (c :: rest) acc counts =
            diversitySelect rest (acc ++ [c])
              (fun x => if x = categorizePost c.mainPost
                then counts (categorizePost c.mainPost) + 1 else counts x) := by
          simp only [diversitySelect]
          rw [if_neg hbreak, if_pos hcat]
        rw [step]
        apply ih
        · have hlt : acc.length < 8 := lt_of_not_le hbreak
          simp only [List.length_append, List.length_singleton]
          omega
        · intro cat
          rw [List.filter_append, List.length_append, hcnt cat]
          by_cases hx : cat = categorizePost c.mainPost
          · rw [if_pos hx]
            have h1 : (List.filter
                (fun c' => decide (categorizePost c'.mainPost = cat)) [c]).length = 1 := by
              simp [← hx]
            rw [h1, hx]
          · rw [if_neg hx]
            have h0 : (List.filter
                (fun c' => decide (categorizePost c'.mainPost = cat)) [c]).length = 0 := by
              have hne : ¬ categorizePost c.mainPost = cat := fun h => hx h.symm
              simp [hne]
            rw [h0]
            omega
        · intro cat
          by_cases hx : cat = categorizePost c.mainPost
          · rw [if_pos hx]
            omega
          · rw [if_neg hx]
            exact hcap cat
      · have step : diversitySelect (c :: rest) acc counts =
            diversitySelect rest acc counts := by
          simp only [diversitySelect]
          rw [if_neg hbreak, if_neg hcat]
        rw [step]
        exact ih acc counts hlen hcnt hcap

/-- Claim C5: for every candidate list, the digest diversity filter selects
at most 3 clusters per category — as classified by `categorizePost` on the
cluster's main item — and at most 8 clusters in total. -/
theorem diversityFilter_caps (clusters : List Cluster) :
    (diversityFilter clusters).length ≤ 8 ∧
    ∀ cat, ((diversityFilter clusters).filter
      fun c => decide (categorizePost c.mainPost = cat)).length ≤ 3 :=
  diversitySelect_spec clusters [] (fun _ => 0) (by simp) (by simp) (by simp)

/-! Claim C3. -/

/-- Claim C3: for every cluster processed by the feed rebuild, the synergy
multiplier is exactly 1.0 for one distinct source tag, 1.2 for exactly two
and 1.5 for three or more, and the boosted score equals
`totalScore * multiplier`. -/
theorem processCluster_synergy (cluster : Cluster) :
    (processCluster cluster).boostedScore =
      cluster.totalScore * (processCluster cluster).multiplier ∧
    ((processCluster cluster).uniqueSourcesCount = 1 →
      (processCluster cluster).multiplier = 1.0) ∧
    ((processCluster cluster).uniqueSourcesCount = 2 →
      (processCluster cluster).multiplier = 1.2) ∧
    (3 ≤ (processCluster cluster).uniqueSourcesCount →
      (processCluster cluster).multiplier = 1.5) := by
  refine ⟨rfl, ?_, ?_, ?_⟩
  · intro h
    simp only [processCluster, synergyMultiplier] at h ⊢
    rw [h]
    norm_num
  · intro h
    simp only [processCluster, synergyMultiplier] at h ⊢
    rw [h]
    norm_num
  · intro h
    simp only [processCluster, synergyMultiplier] at h ⊢
    rw [if_neg (by omega), if_pos h]

/-- Claim C3 witness: a cluster of three items from github, huggingface and
reddit has three distinct source tags and multiplier 1.5. -/
theorem processCluster_synergy_witness :
    3 ≤ (processCluster c3cluster).uniqueSourcesCount ∧
    (processCluster c3cluster).multiplier = 1.5 := by
  have h3 : 3 ≤ (processCluster c3cluster).uniqueSourcesCount := by
    have : (processCluster c3cluster).uniqueSourcesCount =
        ((["github", "huggingface", "reddit"] : List String).map strToLower).dedup.length := by
      simp [processCluster, clusterSourceTags, c3cluster, c3a, c3b, c3c, mkPost]
    rw [this]
    decide
  exact ⟨h3, (processCluster_synergy c3cluster).2.2.2 h3⟩

/-- A `NaN` operand absorbs `Math.max`. -/
lemma jsMax2_none (x : Option ℝ) : jsMax2 none x = none := by
  cases x <;> rfl

/-- When a `Math.max` fold yields a real value, every operand was a real
value bounded by it. -/
lemma foldl_jsMax2_some :
    ∀ (xs : List (Option ℝ)) (a : Option ℝ) (m : ℝ),
      xs.foldl jsMax2 a = some m →
      (∃ v, a = some v ∧ v ≤ m) ∧ ∀ x ∈ xs, ∃ v, x = some v ∧ v ≤ m := by
  intro xs
  induction xs with
  | nil =>
    intro a m h
    simp only [List.foldl_nil] at h
    exact ⟨⟨m, h, le_refl m⟩, by simp⟩
  | cons x xs ih =>
    intro a m h
    simp only [List.foldl_cons] at h
    obtain ⟨⟨w, hw, hwm⟩, hrest⟩ := ih (jsMax2 a x) m h
    match a, x, hw with
    | some va, some vx, hw =>
      simp only [jsMax2, Option.some.injEq] at hw
      refine ⟨⟨va, rfl, ?_⟩, ?_⟩
      · have : va ≤ w := hw ▸ le_max_left va vx
        linarith
      · intro y hy
        rcases List.mem_cons.mp hy with rfl | hy'
        · refine ⟨vx, rfl, ?_⟩
          have : vx ≤ w := hw ▸ le_max_right va vx
          linarith
        · exact hrest y hy'
    | none, x, hw =>
      rw [jsMax2_none] at hw
      exact absurd hw (by simp)
    | some va, none, hw =>
      exact absurd hw (by simp [jsMax2])

/-- When `Math.max(...l)` yields a real value, every element of `l` is a
real value bounded by it. -/
lemma jsMaxList_le (l : List (Option ℝ)) (m : ℝ) (h : jsMaxList l = some m) :
    ∀ x ∈ l, ∃ v, x = some v ∧ v ≤ m := by
  match l, h with
  | x :: xs, h =>
    intro y hy
    obtain ⟨hhead, hrest⟩ := foldl_jsMax2_some xs x m h
    rcases List.mem_cons.mp hy with rfl | hy'
    · exact hhead
    · exact hrest y hy'

/-- A `NaN` accumulator poisons the whole `Math.max` fold. -/
lemma foldl_jsMax2_none (xs : List (Option ℝ)) : xs.foldl jsMax2 none = none := by
  induction xs with
  | nil => rfl
  | cons x xs ih => rw [List.foldl_cons, jsMax2_none]; exact ih

/-- `Math.max` over a nonempty all-`NaN` spread is `NaN`. -/
lemma jsMaxList_none_of_all (l : List (Option ℝ)) (hne : l ≠ [])
    (hall : ∀ x ∈ l, x = none) : jsMaxList l = none := by
  match l with
  | [] => exact absurd rfl hne
  | x :: xs =>
    have hx : x = none := hall x (List.mem_cons_self x xs)
    rw [jsMaxList, hx, foldl_jsMax2_none]

/-- A sum of squares is nonnegative. -/
lemma sumsq_nonneg (v : List ℝ) : 0 ≤ sumsq v := by
  apply List.sum_nonneg
  intro x hx
  obtain ⟨y, -, rfl⟩ := List.mem_map.mp hx
  exact mul_self_nonneg y

/-- A vector with zero sum of squares is the zero vector. -/
lemma sumsq_eq_zero (v : List ℝ) (h : sumsq v = 0) : ∀ x ∈ v, x = 0 := by
  induction v with
  | nil => simp
  | cons x xs ih =>
    have hx2 : 0 ≤ x * x := mul_self_nonneg x
    have hxs : 0 ≤ sumsq xs := sumsq_nonneg xs
    have hsum : x * x + sumsq xs = 0 := by
      simpa [sumsq] using h
    have hxx : x * x = 0 := by linarith
    have hx0 : x = 0 := mul_self_eq_zero.mp hxx
    intro y hy
    rcases List.mem_cons.mp hy with rfl | hy'
    · exact hx0
    · exact ih (by linarith) y hy'

/-- With either vector of zero L2 norm the similarity denominator is zero
and the JS division yields `NaN` (`none`): there is no guard in the code. -/
lemma cosineSimilarity_none_of_zero (vecA vecB : List ℝ)
    (h : sumsq vecA = 0 ∨ sumsq vecB = 0) :
    cosineSimilarity vecA vecB = none := by
  by_cases hlen : vecB.length < vecA.length
  · simp only [cosineSimilarity]
    rw [if_pos hlen]
  · simp only [cosineSimilarity]
    rw [if_neg hlen]
    have hzero : Real.sqrt (sumsq vecA) *
        Real.sqrt (((vecA.zip vecB).map fun p => p.2 * p.2).sum) = 0 := by
      rcases h with ha | hb
      · rw [ha, Real.sqrt_zero, zero_mul]
      · have hpairs : (((vecA.zip vecB).map fun p => p.2 * p.2)).sum = 0 := by
          apply List.sum_eq_zero
          intro x hx
          obtain ⟨p, hp, rfl⟩ := List.mem_map.mp hx
          have hp2 : p.2 ∈ vecB := by
            obtain ⟨a, b⟩ := p
            exact (List.of_mem_zip hp).2
          rw [sumsq_eq_zero vecB hb p.2 hp2, mul_zero]
        rw [hpairs, Real.sqrt_zero, mul_zero]
    rw [if_pos hzero]



/-- Claim C9 (amended): the cosine-similarity computation has no explicit
zero-vector guard — when either vector has zero L2 norm the JS division is
`0/0 = NaN` (modelled `none`).  Because every `NaN` comparison is false,
the clustering path indeed never judges such a pair related through the
embedding test; but in temporal de-duplication the `NaN` maximum makes the
keep test `maxSimilarity < 0.85` false, so a candidate whose present
embedding has zero norm IS dropped whenever the history is nonempty. -/
theorem cosineSimilarity_zero_vector_semantics :
    (∀ (vecA vecB : List ℝ), sumsq vecA = 0 ∨ sumsq vecB = 0 →
      cosineSimilarity vecA vecB = none) ∧
    (∀ (vecA vecB : List ℝ), sumsq vecA = 0 ∨ sumsq vecB = 0 →
      ¬ jsGt (cosineSimilarity vecA vecB) 0.85) ∧
    (∀ (history : List HistEntry) (c : Cluster) (emb : List ℝ),
      c.mainPost.embedding = some emb → sumsq emb = 0 → history ≠ [] →
      ¬ keepCandidate history c) := by
  refine ⟨cosineSimilarity_none_of_zero, ?_, ?_⟩
  · intro vecA vecB h hc
    rw [cosineSimilarity_none_of_zero vecA vecB h] at hc
    exact hc
  · intro history c emb hemb hzero hne hkeep
    simp only [keepCandidate, hemb] at hkeep
    have hlen : 0 < history.length := List.length_pos.mpr hne
    rw [if_pos hlen] at hkeep
    have hallnone : ∀ x ∈ history.map fun h => cosineSimilarity h.embedding emb,
        x = none := by
      intro x hx
      obtain ⟨h', -, rfl⟩ := List.mem_map.mp hx
      exact cosineSimilarity_none_of_zero _ _ (Or.inr hzero)
    have hmapne : history.map (fun h => cosineSimilarity h.embedding emb) ≠ [] := by
      intro hcon
      exact hne (List.map_eq_nil_iff.mp hcon)
    rw [jsMaxList_none_of_all _ hmapne hallnone] at hkeep
    exact hkeep

/-- Claim C9 counterexample: a dedup candidate whose main-item embedding is
the zero vector is dropped (the claim says it must not be dropped): with
one history entry the similarity is `0/0 = NaN`, the keep test fails, and
the filter returns the empty list. -/
theorem cosineSimilarity_zero_vector_counterexample :
    c9cluster.mainPost.embedding = some c9emb ∧
    sumsq c9emb = 0 ∧
    temporalDedup false [c9hist] [c9cluster] = [] := by
  have hzero : sumsq c9emb = 0 := by norm_num [sumsq, c9emb]
  refine ⟨rfl, hzero, ?_⟩
  have hkeep : ¬ keepCandidate [c9hist] c9cluster := by
    have := (cosineSimilarity_zero_vector_semantics).2.2 [c9hist] c9cluster c9emb rfl
      hzero (by simp)
    exact this
  simp only [temporalDedup, Bool.false_eq_true, if_false]
  rw [List.filter_cons]
  simp [hkeep]



/-- Claim C9 amended witness: concrete zero-norm vectors instantiating the
three parts of the amended statement. -/
theorem cosineSimilarity_zero_vector_semantics_witness :
    (sumsq w9emb = 0 ∧ cosineSimilarity w9emb [3, 4] = none) ∧
    ¬ jsGt (cosineSimilarity [3, 4] w9emb) 0.85 ∧
    (w9cluster.mainPost.embedding = some w9emb ∧ ([w9hist] : List HistEntry) ≠ [] ∧
      ¬ keepCandidate [w9hist] w9cluster) := by
  have hzero : sumsq w9emb = 0 := by norm_num [sumsq, w9emb]
  refine ⟨⟨hzero, cosineSimilarity_zero_vector_semantics.1 w9emb [3, 4] (Or.inl hzero)⟩,
    cosineSimilarity_zero_vector_semantics.2.1 [3, 4] w9emb (Or.inr hzero),
    rfl, by simp,
    cosineSimilarity_zero_vector_semantics.2.2 [w9hist] w9cluster w9emb rfl hzero (by simp)⟩

/-- Claim C4 (amended): in digest curation a candidate is included
unchanged when `force = true`; a candidate whose main-item embedding has
cosine similarity above 0.85 with some history embedding is excluded when
`force = false`; a candidate with no main-item embedding is never dropped;
and a candidate is kept exactly when the maximum similarity is STRICTLY
below 0.85 — at exactly 0.85 the keep test `maxSimilarity < 0.85` fails
and the candidate is excluded. -/
theorem temporalDedup_spec :
    (∀ (history : List HistEntry) (clusters : List Cluster),
      temporalDedup true history clusters = clusters) ∧
    (∀ (history : List HistEntry) (clusters : List Cluster) (c : Cluster)
      (emb : List ℝ) (h : HistEntry),
      c.mainPost.embedding = some emb → h ∈ history →
      jsGt (cosineSimilarity h.embedding emb) 0.85 →
      c ∉ temporalDedup false history clusters) ∧
    (∀ (history : List HistEntry) (clusters : List Cluster) (c : Cluster),
      c ∈ clusters → c.mainPost.embedding = none →
      c ∈ temporalDedup false history clusters) ∧
    (∀ (history : List HistEntry) (clusters : List Cluster) (c : Cluster)
      (emb : List ℝ) (m : ℝ),
      c ∈ clusters → c.mainPost.embedding = some emb →
      jsMaxList (history.map fun h => cosineSimilarity h.embedding emb) = some m →
      m < 0.85 →
      c ∈ temporalDedup false history clusters) := by
  refine ⟨?_, ?_, ?_, ?_⟩
  · intro history clusters
    simp [temporalDedup]
  · intro history clusters c emb h hemb hmem hgt hc
    simp only [temporalDedup, Bool.false_eq_true, if_false] at hc
    have hkeep : keepCandidate history c :=
      of_decide_eq_true (List.mem_filter.mp hc).2
    simp only [keepCandidate, hemb] at hkeep
    have hlen : 0 < history.length := List.length_pos.mpr (by
      intro hcon
      rw [hcon] at hmem
      exact List.not_mem_nil h hmem)
    rw [if_pos hlen] at hkeep
    rcases hmax : jsMaxList (history.map fun h' => cosineSimilarity h'.embedding emb) with
      _ | m
    · rw [hmax] at hkeep
      exact hkeep
    · rw [hmax] at hkeep
      have hm : m < 0.85 := hkeep
      obtain ⟨v, hv, hvm⟩ := jsMaxList_le _ m hmax
        (cosineSimilarity h.embedding emb) (List.mem_map_of_mem _ hmem)
      rw [hv] at hgt
      have : (0.85 : ℝ) < v := hgt
      linarith
  · intro history clusters c hc hemb
    simp only [temporalDedup, Bool.false_eq_true, if_false]
    refine List.mem_filter.mpr ⟨hc, decide_eq_true ?_⟩
    simp [keepCandidate, hemb]
  · intro history clusters c emb m hc hemb hmax hm
    simp only [temporalDedup, Bool.false_eq_true, if_false]
    refine List.mem_filter.mpr ⟨hc, decide_eq_true ?_⟩
    simp only [keepCandidate, hemb]
    have hne : history ≠ [] := by
      intro hcon
      rw [hcon] at hmax
      simp [jsMaxList] at hmax
    have hlen : 0 < history.length := List.length_pos.mpr hne
    rw [if_pos hlen, hmax]
    exact hm



/-- Claim C4 counterexample: a candidate whose maximum history similarity
is exactly 0.85 — which does not exceed 0.85 — is nevertheless excluded
when `force = false`, because the code keeps only `maxSimilarity < 0.85`.
The history vector `[1, 0]` against the embedding `[17, √111]` gives
similarity `17 / (1 * 20) = 0.85` exactly. -/
theorem temporalDedup_boundary_counterexample :
    c4cluster.mainPost.embedding = some c4emb ∧
    jsMaxList ([c4hist].map fun h => cosineSimilarity h.embedding c4emb) = some 0.85 ∧
    ¬ ((0.85 : ℝ) > 0.85) ∧
    temporalDedup false [c4hist] [c4cluster] = [] := by
  have hsim : cosineSimilarity c4hist.embedding c4emb = some 0.85 := by
    show cosineSimilarity [1, 0] c4emb = some 0.85
    simp only [cosineSimilarity, sumsq, c4emb]
    have h111 : Real.sqrt 111 * Real.sqrt 111 = 111 :=
      Real.mul_self_sqrt (by norm_num)
    have h400 : Real.sqrt 400 = 20 := by
      rw [show (400 : ℝ) = 20 ^ 2 from by norm_num,
        Real.sqrt_sq (by norm_num : (0:ℝ) ≤ 20)]
    norm_num [Real.sqrt_one, h111, h400]
  have hmax : jsMaxList ([c4hist].map fun h => cosineSimilarity h.embedding c4emb)
      = some 0.85 := by
    simp only [List.map_cons, List.map_nil, jsMaxList, List.foldl_nil]
    exact hsim
  refine ⟨rfl, hmax, by norm_num, ?_⟩
  have hkeep : ¬ keepCandidate [c4hist] c4cluster := by
    intro hk
    simp only [keepCandidate,
      show c4cluster.mainPost.embedding = some c4emb from rfl] at hk
    rw [if_pos (by simp), hmax] at hk
    have : (0.85 : ℝ) < 0.85 := hk
    linarith
  simp only [temporalDedup, Bool.false_eq_true, if_false]
  rw [List.filter_cons]
  simp [hkeep]

/-- Claim C4 amended witness: concrete candidates instantiating all four
parts — force-inclusion, exclusion above the threshold, the no-embedding
candidate, and a kept candidate with maximum similarity 0 below 0.85. -/
theorem temporalDedup_spec_witness :
    temporalDedup true [w4hist] [w4dropCluster] = [w4dropCluster] ∧
    (w4dropCluster.mainPost.embedding = some [1, 0] ∧ w4hist ∈ [w4hist] ∧
      jsGt (cosineSimilarity w4hist.embedding [1, 0]) 0.85 ∧
      w4dropCluster ∉ temporalDedup false [w4hist] [w4dropCluster]) ∧
    (w4noembCluster ∈ temporalDedup false [w4hist] [w4noembCluster]) ∧
    (jsMaxList ([w4hist].map fun h => cosineSimilarity h.embedding [0, 1]) = some 0 ∧
      (0 : ℝ) < 0.85 ∧
      w4keepCluster ∈ temporalDedup false [w4hist] [w4keepCluster]) := by
  have hsim1 : cosineSimilarity w4hist.embedding [1, 0] = some 1 := by
    show cosineSimilarity [1, 0] [1, 0] = some 1
    simp only [cosineSimilarity, sumsq]
    norm_num [Real.sqrt_one]
  have hgt : jsGt (cosineSimilarity w4hist.embedding [1, 0]) 0.85 := by
    rw [hsim1]
    show (0.85 : ℝ) < 1
    norm_num
  have hsim0 : cosineSimilarity w4hist.embedding [0, 1] = some 0 := by
    show cosineSimilarity [1, 0] [0, 1] = some 0
    simp only [cosineSimilarity, sumsq]
    norm_num [Real.sqrt_one]
  have hmax0 : jsMaxList ([w4hist].map fun h => cosineSimilarity h.embedding [0, 1])
      = some 0 := by
    simp only [List.map_cons, List.map_nil, jsMaxList, List.foldl_nil]
    exact hsim0
  refine ⟨temporalDedup_spec.1 [w4hist] [w4dropCluster],
    ⟨rfl, by simp, hgt,
      temporalDedup_spec.2.1 [w4hist] [w4dropCluster] w4dropCluster [1, 0] w4hist rfl
        (by simp) hgt⟩,
    temporalDedup_spec.2.2.1 [w4hist] [w4noembCluster] w4noembCluster (by simp) rfl,
    hmax0, by norm_num,
    temporalDedup_spec.2.2.2 [w4hist] [w4keepCluster] w4keepCluster [0, 1] 0
      (by simp) rfl hmax0 (by norm_num)⟩



/-- Claim C6: if any stage of the feed rebuild throws, the catch branch
leaves the Feed Cache exactly as it was — the previous snapshot (or the
empty state) is preserved; and a rebuild never clears a populated cache,
whatever the outcome. -/
theorem rebuildFeed_error_preserves_cache :
    ∀ (e : String) (now : ℝ) (cache : Option CachedFeed),
      rebuildFeed (Except.error e) now cache = cache ∧
      (∀ r : Except String (List Cluster),
        cache ≠ none → rebuildFeed r now cache ≠ none) := by
  intro e now cache
  refine ⟨rfl, ?_⟩
  intro r hne
  cases r with
  | error e' => exact hne
  | ok l => simp [rebuildFeed, feedCacheSet]

/-- Claim C6 witness: a failed rebuild over a concrete populated cache
leaves it untouched, and a successful one keeps it populated. -/
theorem rebuildFeed_error_preserves_cache_witness :
    rebuildFeed (Except.error ("db down")) 0 w6cache = w6cache ∧
    (w6cache ≠ none ∧ rebuildFeed (Except.ok []) 0 w6cache ≠ none) :=
  ⟨(rebuildFeed_error_preserves_cache ("db down") 0 w6cache).1,
    by simp [w6cache],
    (rebuildFeed_error_preserves_cache ("db down") 0 w6cache).2 (Except.ok [])
      (by simp [w6cache])⟩

end

end N3rdFeed
